import Mathlib

/-!
Verification development for the core rendering engines of the
Spatial_Audio_Framework repository: the binaural Ambisonic decoder
(examples/ambi_bin/src/ambi_bin.c) and the HRTF-based binauraliser
(examples/binauraliser/src/binauraliser.c).

Modelling conventions.  The C code computes with single-precision floats;
signal values here are modelled as exact rationals, so the theorems capture
the algebraic dataflow of the code (which is what the specification claims
describe, "up to float rounding").  Whenever a claim depends on genuine
IEEE-754 behaviour (division by zero, 0 times infinity) a small explicit
extended-value domain FV is used instead.  The complex type float_complex
is modelled as a pair of rationals, with the saf_complex operations ccaddf
(componentwise addition, the Prod instance), ccmulf (cmul below) and crmulf
(crmul below).  The afSTFT analysis/synthesis filterbank, the SH rotation
matrix generator, the HRTF interpolation kernel and the internal reinit
rebuild routines are not part of the repository sources and are treated,
exactly as the specification prescribes, as black boxes: they enter the
definitions as function parameters.  Fixed configuration constants that the
headers define (FRAME_SIZE, HYBRID_BANDS, TIME_SLOTS, active channel
counts) are kept as explicit parameters of the definitions.
-/

/-- Complex sample value: the re/im pair of a float_complex, as rationals. -/
abbrev CQ : Type := ℚ × ℚ

/-- The ccmulf operation of saf_complex: full complex multiplication. -/
def cmul (a b : CQ) : CQ :=
  (a.1 * b.1 - a.2 * b.2, a.1 * b.2 + a.2 * b.1)

/-- The crmulf operation of saf_complex: scale a complex value by a real. -/
def crmul (a : CQ) (r : ℚ) : CQ :=
  (a.1 * r, a.2 * r)

/-- Row-major complex matrix product, as performed by the cblas_cgemm calls
in the sources with alpha = 1 and beta = 0: entry (i, j) is the sum over k
of A(i, k) * B(k, j).  Only the active region of the fixed-capacity C
arrays (leading dimension MAX_NUM_SH_SIGNALS) is represented. -/
def matMul {m n p : ℕ} (A : Fin m → Fin n → CQ) (B : Fin n → Fin p → CQ) :
    Fin m → Fin p → CQ :=
  fun i j => ∑ k : Fin n, cmul (A i k) (B k j)

/-- The crossfade ramp built by ambi_bin_init (ambi_bin.c lines 144-145):
for i = 1..TIME_SLOTS, interpolator at index i-1 is i / TIME_SLOTS.  The
domain Fin T records that the ramp has length TIME_SLOTS. -/
def ambiBinInterpolator (T : ℕ) (j : Fin T) : ℚ :=
  ((j : ℕ) + 1) / (T : ℚ)

/-- The azimuth setter binauraliser_setSourceAzi_deg (binauraliser.c lines
312-322), restricted to the stored angle: values above 180 are first
shifted by -360, then the result is clamped with MAX to -180 and MIN
to 180. -/
def binauraliser_setSourceAzi_deg (newAzi : ℚ) : ℚ :=
  let a1 := if newAzi > 180 then -360 + newAzi else newAzi
  let a2 := max a1 (-180)
  min a2 180

/-- The elevation setter binauraliser_setSourceElev_deg (binauraliser.c
lines 324-332), restricted to the stored angle: clamped with MAX to -90
and MIN to 90. -/
def binauraliser_setSourceElev_deg (newElev : ℚ) : ℚ :=
  min (max newElev (-90)) 90

/-- The per-band mixing-matrix construction of ambi_bin_process (ambi_bin.c
lines 251-262): for order > 0 the band decode matrix M_dec is multiplied by
the SH rotation matrix M_rot (cblas_cgemm over the active nSH region); for
order 0 the decode matrix rows are copied directly (memcpy of the active
entries).  B is HYBRID_BANDS and n is the active channel count nSH. -/
def ambiBinCurrentM (B n : ℕ) (order : ℕ)
    (M_dec : Fin B → Fin 2 → Fin n → CQ)
    (M_rot : Fin n → Fin n → CQ) :
    Fin B → Fin 2 → Fin n → CQ :=
  fun band =>
    if order > 0 then
      fun i j => matMul (M_dec band) M_rot i j
    else
      M_dec band

/-- C8: the interpolation ramp generated at init is strictly monotonically
increasing, has length TIME_SLOTS (its index type), every entry lies in
(0, 1], its first entry equals 1/TIME_SLOTS, and its last entry equals 1. -/
theorem claim_C8_interpolator_ramp (T : ℕ) (hT : 0 < T) (j k : Fin T) :
    (j < k → ambiBinInterpolator T j < ambiBinInterpolator T k) ∧
    0 < ambiBinInterpolator T j ∧
    ambiBinInterpolator T j ≤ 1 ∧
    ambiBinInterpolator T ⟨0, hT⟩ = 1 / (T : ℚ) ∧
    ambiBinInterpolator T ⟨T - 1, Nat.sub_lt hT Nat.one_pos⟩ = 1 := by
  have hTq : (0 : ℚ) < (T : ℚ) := by exact_mod_cast hT
  refine ⟨?_, ?_, ?_, ?_, ?_⟩
  · intro hjk
    unfold ambiBinInterpolator
    rw [div_lt_div_iff_of_pos_right hTq]
    exact_mod_cast Nat.succ_lt_succ hjk
  · unfold ambiBinInterpolator
    positivity
  · unfold ambiBinInterpolator
    rw [div_le_one hTq]
    have : (j : ℕ) + 1 ≤ T := j.isLt
    exact_mod_cast this
  · unfold ambiBinInterpolator
    norm_num
  · unfold ambiBinInterpolator
    have h1 : ((T - 1 : ℕ) : ℚ) + 1 = (T : ℚ) := by
      have : 1 ≤ T := hT
      push_cast [Nat.cast_sub this]
      ring
    rw [h1, div_self (ne_of_gt hTq)]

/-- Witness for C8 at TIME_SLOTS = 4 with indices 1 < 2. -/
theorem claim_C8_interpolator_ramp_witness :
    0 < 4 ∧
    (((1 : Fin 4) < 2 → ambiBinInterpolator 4 1 < ambiBinInterpolator 4 2) ∧
     0 < ambiBinInterpolator 4 1 ∧
     ambiBinInterpolator 4 1 ≤ 1 ∧
     ambiBinInterpolator 4 ⟨0, by norm_num⟩ = 1 / (4 : ℚ) ∧
     ambiBinInterpolator 4 ⟨4 - 1, Nat.sub_lt (by norm_num) Nat.one_pos⟩ = 1) :=
  ⟨by norm_num, claim_C8_interpolator_ramp 4 (by norm_num) 1 2⟩

/-- C6 counterexample: the claim asserts that the stored azimuth always
lies in the half-open interval (-180, 180], but the code clamps with
MAX(newAzi, -180.0f), so the input -180 is stored as exactly -180, which
is not in the claimed interval. -/
theorem claim_C6_counterexample :
    binauraliser_setSourceAzi_deg (-180) = -180 ∧
    ¬ ((-180 : ℚ) < -180) := by
  constructor
  · norm_num [binauraliser_setSourceAzi_deg]
  · norm_num

/-- C6 amended: the stored azimuth lies in the closed interval
[-180, 180]; inputs strictly above 180 (up to 540) are wrapped by
subtracting 360, so input 190 stores -170; the stored elevation is
clamped to [-90, 90]. -/
theorem claim_C6_azi_wrap_elev_clamp (a e : ℚ) :
    -180 ≤ binauraliser_setSourceAzi_deg a ∧
    binauraliser_setSourceAzi_deg a ≤ 180 ∧
    (180 < a → a ≤ 540 → binauraliser_setSourceAzi_deg a = a - 360) ∧
    binauraliser_setSourceAzi_deg 190 = -170 ∧
    -90 ≤ binauraliser_setSourceElev_deg e ∧
    binauraliser_setSourceElev_deg e ≤ 90 := by
  refine ⟨?_, ?_, ?_, ?_, ?_, ?_⟩
  · unfold binauraliser_setSourceAzi_deg
    simp only [le_min_iff, le_max_iff]
    constructor
    · right; rfl
    · norm_num
  · unfold binauraliser_setSourceAzi_deg
    exact min_le_right _ _
  · intro h1 h2
    unfold binauraliser_setSourceAzi_deg
    rw [if_pos h1]
    show min (max (-360 + a) (-180)) 180 = a - 360
    rw [max_eq_left (by linarith), min_eq_left (by linarith)]
    ring
  · norm_num [binauraliser_setSourceAzi_deg]
  · unfold binauraliser_setSourceElev_deg
    simp only [le_min_iff, le_max_iff]
    constructor
    · right; rfl
    · norm_num
  · unfold binauraliser_setSourceElev_deg
    exact min_le_right _ _

/-- Witness for C6 at azimuth input 190 and elevation input 100. -/
theorem claim_C6_azi_wrap_elev_clamp_witness :
    ((180 : ℚ) < 190 ∧ (190 : ℚ) ≤ 540) ∧
    binauraliser_setSourceAzi_deg 190 = 190 - 360 ∧
    -90 ≤ binauraliser_setSourceElev_deg 100 ∧
    binauraliser_setSourceElev_deg 100 ≤ 90 :=
  ⟨⟨by norm_num, by norm_num⟩,
   (claim_C6_azi_wrap_elev_clamp 190 100).2.2.1 (by norm_num) (by norm_num),
   (claim_C6_azi_wrap_elev_clamp 190 100).2.2.2.2.1,
   (claim_C6_azi_wrap_elev_clamp 190 100).2.2.2.2.2⟩

/-- C4: for order = 0 the mixing matrix of every band is the precomputed
decode matrix M_dec of that band, so it is independent of the SH rotation
matrix and hence of any yaw/pitch/roll values that produce it while all
other state is held fixed.  The rotation-matrix generator
getSHrotMtxReal (an external collaborator) is abstracted as the function
shRot from yaw/pitch/roll to an nSH-by-nSH matrix. -/
theorem claim_C4_order_zero_no_rotation (B n : ℕ)
    (M_dec : Fin B → Fin 2 → Fin n → CQ)
    (shRot : ℚ → ℚ → ℚ → Fin n → Fin n → CQ)
    (y p r y2 p2 r2 : ℚ) (band : Fin B) (i : Fin 2) (j : Fin n) :
    ambiBinCurrentM B n 0 M_dec (shRot y p r) band i j = M_dec band i j ∧
    ambiBinCurrentM B n 0 M_dec (shRot y p r) band i j =
      ambiBinCurrentM B n 0 M_dec (shRot y2 p2 r2) band i j := by
  constructor <;> simp [ambiBinCurrentM]

/-- State retained across blocks by the crossfade mixer of ambi_bin:
prev_M is the mixing matrix of the previous block and prev_SHframeTF the
subband tensor analysed from the previous block input frame (ambi_bin.c,
fields prev_M and prev_SHframeTF, both zeroed by ambi_bin_init). -/
structure AmbiMixState (B n T : ℕ) where
  prev_M : Fin B → Fin 2 → Fin n → CQ
  prev_SHframeTF : Fin B → Fin n → Fin T → CQ

/-- The crossfade mix and state hand-over of ambi_bin_process (ambi_bin.c
lines 264-289).  Per band, temp_binframeTF is prev_M times prev_SHframeTF
and binframeTF is current_M times prev_SHframeTF (the two cgemm calls);
entry (i, j) is then overwritten with the ramped combination
binframeTF * interpolator(j) + temp * (1 - interpolator(j)) (ccaddf of two
crmulf terms).  Afterwards, in the section marked for the next frame, the
subband tensor SHframeTF analysed from the current block input is copied
into prev_SHframeTF and current_M into prev_M. -/
def ambiBinMixBlock {B n T : ℕ} (st : AmbiMixState B n T)
    (current_M : Fin B → Fin 2 → Fin n → CQ)
    (SHframeTF : Fin B → Fin n → Fin T → CQ)
    (interpolator : Fin T → ℚ) :
    (Fin B → Fin 2 → Fin T → CQ) × AmbiMixState B n T :=
  (fun band =>
     let temp := matMul (st.prev_M band) (st.prev_SHframeTF band)
     let bin := matMul (current_M band) (st.prev_SHframeTF band)
     fun i j => crmul (bin i j) (interpolator j) + crmul (temp i j) (1 - interpolator j),
   { prev_M := current_M, prev_SHframeTF := SHframeTF })

/-- Concrete crossfade state for the C2 counterexample: both previous
tensors are zero, as after ambi_bin_init. -/
def c2prevSt : AmbiMixState 1 1 1 :=
  ⟨fun _ _ _ => 0, fun _ _ _ => 0⟩

/-- Concrete current mixing matrix for the C2 counterexample. -/
def c2curM : Fin 1 → Fin 2 → Fin 1 → CQ := fun _ _ _ => (1, 0)

/-- Concrete current-block subband tensor for the C2 counterexample. -/
def c2X : Fin 1 → Fin 1 → Fin 1 → CQ := fun _ _ _ => (1, 0)

/-- Concrete ramp for the C2 counterexample. -/
def c2ramp : Fin 1 → ℚ := fun _ => 1

/-- C2 counterexample: in the first block after init the previous subband
tensor is zero, so the mixer output is zero, while the claimed formula
applies both matrices to the subband tensor of the current block input and
predicts a nonzero output. -/
theorem claim_C2_counterexample :
    (ambiBinMixBlock c2prevSt c2curM c2X c2ramp).1 0 0 0 = (0, 0) ∧
    crmul (matMul (c2curM 0) (c2X 0) 0 0) (c2ramp 0) +
      crmul (matMul (c2prevSt.prev_M 0) (c2X 0) 0 0) (1 - c2ramp 0) = (1, 0) ∧
    ((0 : ℚ), (0 : ℚ)) ≠ ((1 : ℚ), (0 : ℚ)) := by
  refine ⟨?_, ?_, by decide⟩
  · simp [ambiBinMixBlock, matMul, cmul, crmul, c2prevSt, c2curM, c2X, c2ramp]
  · simp [matMul, cmul, crmul, c2prevSt, c2curM, c2X, c2ramp]

/-- C2 amended: for each band, ear and time slot, the mixer output is
ramp(t) * (current_M x X)(ear, t) + (1 - ramp(t)) * (prev_M x X)(ear, t)
where X is the subband tensor retained from the PREVIOUS block input frame
(both matrices are applied to that identical tensor; only the matrix
differs across the ramp); the tensor analysed from the current block input
is only stored for the next block, together with current_M. -/
theorem claim_C2_crossfade_formula {B n T : ℕ} (st : AmbiMixState B n T)
    (current_M : Fin B → Fin 2 → Fin n → CQ)
    (SHframeTF : Fin B → Fin n → Fin T → CQ)
    (interpolator : Fin T → ℚ) (band : Fin B) (ear : Fin 2) (t : Fin T) :
    (ambiBinMixBlock st current_M SHframeTF interpolator).1 band ear t =
      crmul (matMul (current_M band) (st.prev_SHframeTF band) ear t) (interpolator t) +
      crmul (matMul (st.prev_M band) (st.prev_SHframeTF band) ear t) (1 - interpolator t) ∧
    (ambiBinMixBlock st current_M SHframeTF interpolator).2.prev_SHframeTF = SHframeTF ∧
    (ambiBinMixBlock st current_M SHframeTF interpolator).2.prev_M = current_M :=
  ⟨rfl, rfl, rfl⟩

/-- The per-source accumulation loop of binauraliser_process (binauraliser.c
lines 242-254): outputframeTF starts from the memset zero tensor and, for
each source ch in order, every entry (band, ear, t) is replaced by
ccaddf of itself and ccmulf(inputframeTF(band, ch, t),
hrtf_interp(ch, band, ear)). -/
def binauraliserAccumSources (B nS T : ℕ)
    (inputframeTF : Fin B → Fin nS → Fin T → CQ)
    (hrtf_interp : Fin nS → Fin B → Fin 2 → CQ) :
    Fin B → Fin 2 → Fin T → CQ :=
  (List.finRange nS).foldl
    (fun acc ch => fun band ear t =>
      acc band ear t + cmul (inputframeTF band ch t) (hrtf_interp ch band ear))
    (fun _ _ _ => 0)

/-- The scaling pass of binauraliser_process (binauraliser.c lines 256-260):
every entry of outputframeTF is multiplied (crmulf) by the scalar
1.0f / sqrtf((float)nSources).  The library function sqrtf is an external
collaborator and enters as the parameter sqrtf. -/
def binauraliserScaleStep {B T : ℕ} (nS : ℕ) (sqrtf : ℚ → ℚ)
    (outputframeTF : Fin B → Fin 2 → Fin T → CQ) :
    Fin B → Fin 2 → Fin T → CQ :=
  fun band ear t => crmul (outputframeTF band ear t) (1 / sqrtf (nS : ℚ))

/-- The source-accumulation loop evaluated pointwise is the starting entry
plus the list sum of the per-source contributions. -/
theorem accumSources_foldl_eq_sum {B nS T : ℕ}
    (X : Fin B → Fin nS → Fin T → CQ) (H : Fin nS → Fin B → Fin 2 → CQ)
    (l : List (Fin nS)) (acc : Fin B → Fin 2 → Fin T → CQ)
    (band : Fin B) (ear : Fin 2) (t : Fin T) :
    (l.foldl (fun acc ch => fun band ear t =>
        acc band ear t + cmul (X band ch t) (H ch band ear)) acc) band ear t =
      acc band ear t + (l.map (fun ch => cmul (X band ch t) (H ch band ear))).sum := by
  induction l generalizing acc with
  | nil => simp
  | cons ch l ih =>
      simp only [List.foldl_cons, List.map_cons, List.sum_cons, ih]
      rw [add_assoc]

/-- C5: after the per-source HRTF-weighted subbands of all nSources sources
have been summed, every entry of the output subband tensor is multiplied by
exactly 1 / sqrtf(nSources), so the final tensor equals the raw sum scaled
by that factor, for every nSources greater than or equal to one. -/
theorem claim_C5_power_normalisation {B T : ℕ} (nS : ℕ) (hnS : 1 ≤ nS)
    (X : Fin B → Fin nS → Fin T → CQ) (H : Fin nS → Fin B → Fin 2 → CQ)
    (sqrtf : ℚ → ℚ) (band : Fin B) (ear : Fin 2) (t : Fin T) :
    binauraliserScaleStep nS sqrtf (binauraliserAccumSources B nS T X H) band ear t =
      crmul (∑ ch : Fin nS, cmul (X band ch t) (H ch band ear)) (1 / sqrtf (nS : ℚ)) := by
  unfold binauraliserScaleStep binauraliserAccumSources
  rw [accumSources_foldl_eq_sum, Fin.sum_univ_def]
  simp

/-- Witness for C5 at nSources = 1 with unit input, unit HRTF weight and
the constant-one square root stand-in. -/
theorem claim_C5_power_normalisation_witness :
    1 ≤ 1 ∧
    binauraliserScaleStep (B := 1) (T := 1) 1 (fun _ => 1)
        (binauraliserAccumSources 1 1 1 (fun _ _ _ => (1, 0)) (fun _ _ _ => (1, 0))) 0 0 0 =
      crmul (∑ ch : Fin 1, cmul ((1 : ℚ), (0 : ℚ)) ((1 : ℚ), (0 : ℚ))) (1 / (fun _ => (1 : ℚ)) ((1 : ℕ) : ℚ)) :=
  ⟨le_refl 1,
   claim_C5_power_normalisation 1 (le_refl 1) (fun _ _ _ => (1, 0)) (fun _ _ _ => (1, 0))
     (fun _ => 1) 0 0 0⟩

/-- Extended single-precision value domain for the one claim that depends
on genuine IEEE-754 arithmetic: a finite value (exact rational), positive
or negative infinity, or NaN.  Signed zeros are not distinguished; the
operations below implement the IEEE-754 rules for the finite/infinite/NaN
cases that are independent of rounding. -/
inductive FV where
  | fin (q : ℚ)
  | pinf
  | ninf
  | nan
deriving DecidableEq

/-- IEEE-754 multiplication on FV: NaN is absorbing, zero times an
infinity is NaN, a nonzero finite value times an infinity is an infinity
of the product sign, and finite times finite is exact. -/
def fvMul : FV → FV → FV
  | FV.nan, _ => FV.nan
  | _, FV.nan => FV.nan
  | FV.fin a, FV.fin b => FV.fin (a * b)
  | FV.fin a, FV.pinf => if a = 0 then FV.nan else if 0 < a then FV.pinf else FV.ninf
  | FV.fin a, FV.ninf => if a = 0 then FV.nan else if 0 < a then FV.ninf else FV.pinf
  | FV.pinf, FV.fin b => if b = 0 then FV.nan else if 0 < b then FV.pinf else FV.ninf
  | FV.ninf, FV.fin b => if b = 0 then FV.nan else if 0 < b then FV.ninf else FV.pinf
  | FV.pinf, FV.pinf => FV.pinf
  | FV.pinf, FV.ninf => FV.ninf
  | FV.ninf, FV.pinf => FV.ninf
  | FV.ninf, FV.ninf => FV.pinf

/-- IEEE-754 division on FV: NaN is absorbing, a nonzero finite value
divided by zero is a signed infinity, zero divided by zero is NaN, a
finite value divided by an infinity is zero, an infinity divided by a
finite value stays infinite, and infinity divided by infinity is NaN. -/
def fvDiv : FV → FV → FV
  | FV.nan, _ => FV.nan
  | _, FV.nan => FV.nan
  | FV.fin a, FV.fin b =>
      if b = 0 then (if a = 0 then FV.nan else if 0 < a then FV.pinf else FV.ninf)
      else FV.fin (a / b)
  | FV.fin _, FV.pinf => FV.fin 0
  | FV.fin _, FV.ninf => FV.fin 0
  | FV.pinf, FV.fin b => if 0 ≤ b then FV.pinf else FV.ninf
  | FV.ninf, FV.fin b => if 0 ≤ b then FV.ninf else FV.pinf
  | FV.pinf, FV.pinf => FV.nan
  | FV.pinf, FV.ninf => FV.nan
  | FV.ninf, FV.pinf => FV.nan
  | FV.ninf, FV.ninf => FV.nan

/-- NaN recogniser on FV. -/
def fvIsNaN : FV → Bool
  | FV.nan => true
  | _ => false

/-- The value sqrtf((float)nSources) at nSources = 0: IEEE-754 mandates
that the square root of positive zero is exactly positive zero. -/
def sqrtfAtZero : FV := FV.fin 0

/-- One component of the per-entry scale step of binauraliser_process
(binauraliser.c line 260) in IEEE-754 extended arithmetic: crmulf
multiplies the component by the scalar 1.0f / sqrtf((float)nSources). -/
def binauraliserScaleEntryIEEE (sqrtNSources : FV) (entry : FV) : FV :=
  fvMul entry (fvDiv (FV.fin 1) sqrtNSources)

/-- C7 evaluated at the failing input nSources = 0: the accumulation loop
over zero sources leaves every entry of outputframeTF at exactly zero
(the memset value), and the scale step then multiplies that zero entry by
1.0f / sqrtf(0.0f) = positive infinity, producing NaN: the code divides by
zero and injects NaN into the output tensor instead of degenerating to
silence as the claim states. -/
theorem claim_C7_nsources_zero_nan :
    binauraliserAccumSources 1 0 1 (fun _ s _ => s.elim0) (fun s _ _ => s.elim0) 0 0 0 = (0, 0) ∧
    binauraliserScaleEntryIEEE sqrtfAtZero (FV.fin 0) = FV.nan ∧
    fvIsNaN (binauraliserScaleEntryIEEE sqrtfAtZero (FV.fin 0)) = true := by
  refine ⟨?_, by decide, by decide⟩
  simp [binauraliserAccumSources, List.finRange]

/-- The binauraliser state fields touched by binauraliser_setSofaFilePath
(binauraliser.c lines 352-360).  The heap-held path is represented by its
string contents (each call allocates a fresh buffer holding a copy of the
argument; the old buffer is leaked, which is outside this state model). -/
structure BinSofaState where
  sofa_filepath : Option String
  useDefaultHRIRsFLAG : ℤ
  reInitHRTFsAndGainTables : ℤ
deriving DecidableEq

/-- binauraliser_setSofaFilePath: unconditionally stores a copy of the
path, clears useDefaultHRIRsFLAG and requests an HRTF/gain-table reinit. -/
def binauraliser_setSofaFilePath (s : BinSofaState) (path : String) : BinSofaState :=
  { s with sofa_filepath := some path, useDefaultHRIRsFLAG := 0,
           reInitHRTFsAndGainTables := 1 }

/-- The INPUT_ORDERS preset enumeration consumed by
ambi_bin_setInputOrderPreset (the switch cases of ambi_bin.c lines
357-367). -/
inductive INPUT_ORDERS where
  | omni
  | first
  | second
  | third
  | fourth
  | fifth
  | sixth
  | seventh
deriving DecidableEq

/-- The ambisonic order selected by each preset (the switch statement of
ambi_bin_setInputOrderPreset). -/
def inputOrderOf : INPUT_ORDERS → ℕ
  | INPUT_ORDERS.omni => 0
  | INPUT_ORDERS.first => 1
  | INPUT_ORDERS.second => 2
  | INPUT_ORDERS.third => 3
  | INPUT_ORDERS.fourth => 4
  | INPUT_ORDERS.fifth => 5
  | INPUT_ORDERS.sixth => 6
  | INPUT_ORDERS.seventh => 7

/-- The ambi_bin state fields touched by ambi_bin_setUseDefaultHRIRsflag
and ambi_bin_setInputOrderPreset (ambi_bin.c lines 331-339 and 352-373). -/
structure AmbiSetterState where
  useDefaultHRIRsFLAG : ℤ
  reInitCodec : ℤ
  reInitTFT : ℤ
  orderSelected : INPUT_ORDERS
  order : ℕ
  nSH : ℕ
  new_nSH : ℕ
deriving DecidableEq

/-- ambi_bin_setUseDefaultHRIRsflag: only when the flag is currently unset
(zero, meaning an external SOFA file is in use) and the new state is
truthy does it adopt the new state and request a codec reinit; every other
call, including a request to clear the flag, is a no-op. -/
def ambi_bin_setUseDefaultHRIRsflag (s : AmbiSetterState) (newState : ℤ) : AmbiSetterState :=
  if s.useDefaultHRIRsFLAG = 0 ∧ newState ≠ 0 then
    { s with useDefaultHRIRsFLAG := newState, reInitCodec := 1 }
  else
    s

/-- ambi_bin_setInputOrderPreset: when the preset changes it stores the
preset, derives the order and the new SH channel count, requests a
filterbank reinit when the channel count changed, and always requests a
codec reinit; a repeated identical preset is a no-op. -/
def ambi_bin_setInputOrderPreset (s : AmbiSetterState) (newPreset : INPUT_ORDERS) : AmbiSetterState :=
  if s.orderSelected ≠ newPreset then
    { s with orderSelected := newPreset,
             order := inputOrderOf newPreset,
             new_nSH := (inputOrderOf newPreset + 1) * (inputOrderOf newPreset + 1),
             reInitTFT :=
               if (inputOrderOf newPreset + 1) * (inputOrderOf newPreset + 1) ≠ s.nSH then 1
               else s.reInitTFT,
             reInitCodec := 1 }
  else
    s

/-- C9 counterexample: with an engine currently using the default HRIRs
(flag 1) and a clean codec flag, calling ambi_bin_setUseDefaultHRIRsflag
with the different value 0 changes nothing and sets no reinit flag, so a
call with a different value does not always flip the relevant reinit
flag as the claim states. -/
theorem claim_C9_counterexample :
    ambi_bin_setUseDefaultHRIRsflag
        ⟨1, 0, 0, INPUT_ORDERS.first, 1, 4, 4⟩ 0 =
      ⟨1, 0, 0, INPUT_ORDERS.first, 1, 4, 4⟩ ∧
    (ambi_bin_setUseDefaultHRIRsflag
        ⟨1, 0, 0, INPUT_ORDERS.first, 1, 4, 4⟩ 0).reInitCodec = 0 ∧
    (0 : ℤ) ≠ 1 := by
  refine ⟨by decide, by decide, by decide⟩

/-- C9 amended: the three named setters are idempotent for repeated
identical arguments (the second call leaves the modelled engine state
exactly as after the first call); setSofaFilePath always requests an
HRTF reinit; setInputOrderPreset with a different preset always requests
a codec reinit and requests a filterbank reinit exactly when the SH
channel count changes; setUseDefaultHRIRsflag requests a codec reinit
only on a transition from an external file (flag zero) to a truthy new
state, and is a no-op in every other case, in particular when asked to
clear the flag. -/
theorem claim_C9_setter_idempotence (s : BinSofaState) (a : AmbiSetterState)
    (path : String) (n : ℤ) (p : INPUT_ORDERS) :
    binauraliser_setSofaFilePath (binauraliser_setSofaFilePath s path) path =
      binauraliser_setSofaFilePath s path ∧
    ambi_bin_setUseDefaultHRIRsflag (ambi_bin_setUseDefaultHRIRsflag a n) n =
      ambi_bin_setUseDefaultHRIRsflag a n ∧
    ambi_bin_setInputOrderPreset (ambi_bin_setInputOrderPreset a p) p =
      ambi_bin_setInputOrderPreset a p ∧
    (binauraliser_setSofaFilePath s path).reInitHRTFsAndGainTables = 1 ∧
    (a.orderSelected ≠ p → (ambi_bin_setInputOrderPreset a p).reInitCodec = 1 ∧
      ((inputOrderOf p + 1) * (inputOrderOf p + 1) ≠ a.nSH →
        (ambi_bin_setInputOrderPreset a p).reInitTFT = 1)) ∧
    (a.useDefaultHRIRsFLAG = 0 → n ≠ 0 →
      (ambi_bin_setUseDefaultHRIRsflag a n).reInitCodec = 1) ∧
    (¬ (a.useDefaultHRIRsFLAG = 0 ∧ n ≠ 0) →
      ambi_bin_setUseDefaultHRIRsflag a n = a) := by
  refine ⟨rfl, ?_, ?_, rfl, ?_, ?_, ?_⟩
  · by_cases h : a.useDefaultHRIRsFLAG = 0 ∧ n ≠ 0
    · obtain ⟨h0, hn⟩ := h
      simp [ambi_bin_setUseDefaultHRIRsflag, h0, hn]
    · simp [ambi_bin_setUseDefaultHRIRsflag, h]
  · by_cases h : a.orderSelected = p
    · simp [ambi_bin_setInputOrderPreset, h]
    · simp [ambi_bin_setInputOrderPreset, h]
  · intro h
    refine ⟨?_, ?_⟩
    · simp [ambi_bin_setInputOrderPreset, h]
    · intro hn
      simp [ambi_bin_setInputOrderPreset, h, hn]
  · intro h0 hn
    simp [ambi_bin_setUseDefaultHRIRsflag, h0, hn]
  · intro h
    simp [ambi_bin_setUseDefaultHRIRsflag, h]

/-- Witness for C9 covering both the reinit-setting and the no-op branch
of setUseDefaultHRIRsflag and a preset change, at concrete states. -/
theorem claim_C9_setter_idempotence_witness :
    ((0 : ℤ) = 0 ∧ (1 : ℤ) ≠ 0 ∧
      (ambi_bin_setUseDefaultHRIRsflag ⟨0, 0, 0, INPUT_ORDERS.first, 1, 4, 4⟩ 1).reInitCodec = 1) ∧
    (INPUT_ORDERS.first ≠ INPUT_ORDERS.second ∧
      (ambi_bin_setInputOrderPreset ⟨0, 0, 0, INPUT_ORDERS.first, 1, 4, 4⟩
        INPUT_ORDERS.second).reInitCodec = 1) ∧
    (binauraliser_setSofaFilePath ⟨none, 1, 0⟩ "subject.sofa").reInitHRTFsAndGainTables = 1 :=
  ⟨⟨rfl, by decide,
    (claim_C9_setter_idempotence ⟨none, 1, 0⟩ ⟨0, 0, 0, INPUT_ORDERS.first, 1, 4, 4⟩
      "subject.sofa" 1 INPUT_ORDERS.second).2.2.2.2.2.1 rfl (by decide)⟩,
   ⟨by decide,
    ((claim_C9_setter_idempotence ⟨none, 1, 0⟩ ⟨0, 0, 0, INPUT_ORDERS.first, 1, 4, 4⟩
      "subject.sofa" 1 INPUT_ORDERS.second).2.2.2.2.1 (by decide)).1⟩,
   (claim_C9_setter_idempotence ⟨none, 1, 0⟩ ⟨0, 0, 0, INPUT_ORDERS.first, 1, 4, 4⟩
      "subject.sofa" 1 INPUT_ORDERS.second).2.2.2.1⟩

/-- The ambi_bin orientation state for one axis: the internally stored
angle in radians and the axis flip flag (C int).  The same pattern is used
for yaw, pitch and roll and, with an extra recalc flag, by the
binauraliser flip setters. -/
structure AmbiRotState where
  yaw : ℚ
  bFlipYaw : ℤ
deriving DecidableEq

/-- The degree-to-radian conversion macro DEG2RAD (multiplication by the
factor pi/180).  The factor is irrational, so it enters as the abstract
nonzero parameter k; together with RAD2DEGq below this models the exact
mutual inverse pair that the float macros approximate, matching the claim
phrase up to float rounding. -/
def DEG2RADq (k x : ℚ) : ℚ := x * k

/-- The radian-to-degree conversion macro RAD2DEG (multiplication by
180/pi, i.e. division by the DEG2RAD factor k). -/
def RAD2DEGq (k x : ℚ) : ℚ := x / k

/-- ambi_bin_setYaw (ambi_bin.c lines 399-403): stores the converted
angle, negated when the flip flag equals one. -/
def ambi_bin_setYaw (k : ℚ) (s : AmbiRotState) (newYaw : ℚ) : AmbiRotState :=
  { s with yaw := if s.bFlipYaw = 1 then -(DEG2RADq k newYaw) else DEG2RADq k newYaw }

/-- ambi_bin_getYaw (ambi_bin.c lines 492-496): returns the stored angle
in degrees, negated when the flip flag equals one. -/
def ambi_bin_getYaw (k : ℚ) (s : AmbiRotState) : ℚ :=
  if s.bFlipYaw = 1 then -(RAD2DEGq k s.yaw) else RAD2DEGq k s.yaw

/-- ambi_bin_setFlipYaw (ambi_bin.c lines 417-424): when the new state
differs from the current flag it stores the new state and then re-enters
the yaw through setYaw with the negated getter value, both evaluated
AFTER the flag has changed. -/
def ambi_bin_setFlipYaw (k : ℚ) (s : AmbiRotState) (newState : ℤ) : AmbiRotState :=
  if newState ≠ s.bFlipYaw then
    ambi_bin_setYaw k { s with bFlipYaw := newState }
      (-(ambi_bin_getYaw k { s with bFlipYaw := newState }))
  else
    s

/-- C10 counterexample: with flip flag 0 and stored yaw 1 (conversion
factor instantiated at 1), calling setFlipYaw with the value 2, which
differs from the current flag, negates the stored angle but also flips
the sign of the getter value, because the code tests the flag with an
exact comparison against 1: the claim that the getter value is preserved
by any different-valued flip call is false. -/
theorem claim_C10_counterexample :
    (ambi_bin_setFlipYaw 1 ⟨1, 0⟩ 2).yaw = -1 ∧
    ambi_bin_getYaw 1 (ambi_bin_setFlipYaw 1 ⟨1, 0⟩ 2) = -1 ∧
    ambi_bin_getYaw 1 ⟨1, 0⟩ = 1 ∧
    ((2 : ℤ) ≠ 0) ∧ ((-1 : ℚ) ≠ 1) := by
  refine ⟨?_, ?_, ?_, by decide, by norm_num⟩ <;>
    norm_num [ambi_bin_setFlipYaw, ambi_bin_setYaw, ambi_bin_getYaw, DEG2RADq, RAD2DEGq]

/-- C10 amended: for boolean flip states, calling a flip setter with the
value different from the current flag negates the internally stored
radian angle while the getter returns the same degree value before and
after the call, and calling it with the current value changes nothing;
with non-boolean integer values the angle is still negated but the getter
value may change sign. -/
theorem claim_C10_flip_setters (k : ℚ) (s : AmbiRotState) (n : ℤ)
    (hk : k ≠ 0) (hs : s.bFlipYaw = 0 ∨ s.bFlipYaw = 1) (hn : n = 0 ∨ n = 1) :
    (n ≠ s.bFlipYaw →
      (ambi_bin_setFlipYaw k s n).yaw = -s.yaw ∧
      ambi_bin_getYaw k (ambi_bin_setFlipYaw k s n) = ambi_bin_getYaw k s) ∧
    (n = s.bFlipYaw → ambi_bin_setFlipYaw k s n = s) := by
  constructor
  · intro hne
    rcases hs with hs0 | hs1
    · have hn1 : n = 1 := by
        rcases hn with h | h
        · exact absurd (h.trans hs0.symm) hne
        · exact h
      constructor
      · simp [ambi_bin_setFlipYaw, ambi_bin_setYaw, ambi_bin_getYaw,
              DEG2RADq, RAD2DEGq, hs0, hn1, div_mul_cancel₀ _ hk]
      · simp [ambi_bin_setFlipYaw, ambi_bin_setYaw, ambi_bin_getYaw,
              DEG2RADq, RAD2DEGq, hs0, hn1, div_mul_cancel₀ _ hk, neg_div]
    · have hn0 : n = 0 := by
        rcases hn with h | h
        · exact h
        · exact absurd (h.trans hs1.symm) hne
      constructor
      · simp [ambi_bin_setFlipYaw, ambi_bin_setYaw, ambi_bin_getYaw,
              DEG2RADq, RAD2DEGq, hs1, hn0, div_mul_cancel₀ _ hk]
      · simp [ambi_bin_setFlipYaw, ambi_bin_setYaw, ambi_bin_getYaw,
              DEG2RADq, RAD2DEGq, hs1, hn0, div_mul_cancel₀ _ hk, neg_div]
  · intro he
    simp [ambi_bin_setFlipYaw, he]

/-- Witness for C10 at conversion factor 1, yaw 2, flag 0, new state 1. -/
theorem claim_C10_flip_setters_witness :
    ((1 : ℚ) ≠ 0 ∧ ((0 : ℤ) = 0 ∨ (0 : ℤ) = 1) ∧ ((1 : ℤ) = 0 ∨ (1 : ℤ) = 1) ∧ (1 : ℤ) ≠ 0) ∧
    (ambi_bin_setFlipYaw 1 ⟨2, 0⟩ 1).yaw = -2 ∧
    ambi_bin_getYaw 1 (ambi_bin_setFlipYaw 1 ⟨2, 0⟩ 1) = ambi_bin_getYaw 1 ⟨2, 0⟩ :=
  ⟨⟨by norm_num, Or.inl rfl, Or.inr rfl, by decide⟩,
   ((claim_C10_flip_setters 1 ⟨2, 0⟩ 1 (by norm_num) (Or.inl rfl) (Or.inr rfl)).1 (by decide)).1,
   ((claim_C10_flip_setters 1 ⟨2, 0⟩ 1 (by norm_num) (Or.inl rfl) (Or.inr rfl)).1 (by decide)).2⟩

/-- Observable events of the reinit drain performed at the top of a
process call: writes to the filterbank (TFT) flag, the filterbank rebuild
call, writes to the codec/HRTF flag, and the codec/HRTF rebuild call. -/
inductive DrainEv where
  | fbSet (v : ℤ)
  | fbRebuild
  | codecSet (v : ℤ)
  | codecRebuild
deriving DecidableEq

/-- Flag state threaded through the drain, with the trace of events
performed so far.  fbFlag models reInitTFT; codecFlag models reInitCodec
(ambi_bin) or reInitHRTFsAndGainTables (binauraliser). -/
structure DrainState where
  fbFlag : ℤ
  codecFlag : ℤ
  trace : List DrainEv
deriving DecidableEq

/-- The filterbank part of the drain (ambi_bin.c lines 184-188,
binauraliser.c lines 181-185): when the flag is requested (1) it is set to
in-progress (2), the rebuild runs, and the flag is set to clean (0);
otherwise nothing happens. -/
def drainFbFlag (s : DrainState) : DrainState :=
  if s.fbFlag = 1 then
    { fbFlag := 0, codecFlag := s.codecFlag,
      trace := s.trace ++ [DrainEv.fbSet 2, DrainEv.fbRebuild, DrainEv.fbSet 0] }
  else
    s

/-- The codec/HRTF part of the drain (ambi_bin.c lines 189-193,
binauraliser.c checkReInit lines 305-309): the same
requested/in-progress/rebuild/clean sequence for the codec flag. -/
def drainCodecFlag (s : DrainState) : DrainState :=
  if s.codecFlag = 1 then
    { fbFlag := s.fbFlag, codecFlag := 0,
      trace := s.trace ++ [DrainEv.codecSet 2, DrainEv.codecRebuild, DrainEv.codecSet 0] }
  else
    s

/-- The drain executed at the top of every ambi_bin_process call: the
filterbank flag first, then the codec flag. -/
def ambiBinDrainTrace (s : DrainState) : DrainState :=
  drainCodecFlag (drainFbFlag s)

/-- The drain executed at the top of every binauraliser_process call: on
builds with __APPLE__ defined, binauraliser_checkReInit drains the
filterbank flag and then the HRTF flag; on every other build only the
filterbank flag is drained there, and the HRTF flag is left untouched. -/
def binauraliserDrainTrace (apple : Bool) (s : DrainState) : DrainState :=
  if apple then drainCodecFlag (drainFbFlag s) else drainFbFlag s

/-- C3 counterexample: on a build without __APPLE__, a process call that
finds both flags requested drains only the filterbank flag; the HRTF flag
stays requested and no codec/HRTF rebuild happens in that process call,
contradicting the claim that every process call drains both flags. -/
theorem claim_C3_counterexample :
    (binauraliserDrainTrace false ⟨1, 1, []⟩).codecFlag = 1 ∧
    DrainEv.codecRebuild ∉ (binauraliserDrainTrace false ⟨1, 1, []⟩).trace ∧
    (binauraliserDrainTrace false ⟨1, 1, []⟩).fbFlag = 0 := by
  refine ⟨by decide, by decide, by decide⟩

/-- C3 amended: in ambi_bin_process (and in binauraliser_process on
builds with __APPLE__), every process call first drains the reinit flags,
each requested flag going through the exact event sequence set(2),
rebuild, set(0) and ending clean, with the complete filterbank sequence
preceding the complete codec sequence in the same drain pass; on other
builds binauraliser_process drains only the filterbank flag this way and
leaves the codec/HRTF flag unchanged (the block is then silenced by the
process guard while that flag is pending). -/
theorem claim_C3_drain_order (t c : ℤ) :
    ambiBinDrainTrace ⟨t, c, []⟩ =
      ⟨if t = 1 then 0 else t, if c = 1 then 0 else c,
       (if t = 1 then [DrainEv.fbSet 2, DrainEv.fbRebuild, DrainEv.fbSet 0] else []) ++
       (if c = 1 then [DrainEv.codecSet 2, DrainEv.codecRebuild, DrainEv.codecSet 0] else [])⟩ ∧
    binauraliserDrainTrace true ⟨t, c, []⟩ = ambiBinDrainTrace ⟨t, c, []⟩ ∧
    binauraliserDrainTrace false ⟨t, c, []⟩ =
      ⟨if t = 1 then 0 else t, c,
       if t = 1 then [DrainEv.fbSet 2, DrainEv.fbRebuild, DrainEv.fbSet 0] else []⟩ := by
  refine ⟨?_, ?_, ?_⟩
  · unfold ambiBinDrainTrace drainFbFlag drainCodecFlag
    by_cases ht : t = 1 <;> by_cases hc : c = 1 <;> simp [ht, hc]
  · unfold binauraliserDrainTrace
    simp [ambiBinDrainTrace]
  · unfold binauraliserDrainTrace drainFbFlag
    by_cases ht : t = 1 <;> simp [ht]

/-- Process-level state of ambi_bin: the two reinit flags and an opaque
resource component Res standing for everything the black-box rebuild
routines ambi_bin_initTFT and ambi_bin_initCodec reconstruct (filterbank
handle, buffers, decode matrices). -/
structure ABProcState (Res : Type) where
  reInitTFT : ℤ
  reInitCodec : ℤ
  res : Res

/-- The drain at the top of ambi_bin_process (ambi_bin.c lines 184-193)
at state level: a requested filterbank flag triggers the filterbank
rebuild and ends clean, then a requested codec flag triggers the codec
rebuild and ends clean (the transient in-progress value 2 is captured by
the trace model ambiBinDrainTrace). -/
def ambiBinProcessDrain {Res : Type} (initTFTfun initCodecfun : Res → Res)
    (s : ABProcState Res) : ABProcState Res :=
  let s1 :=
    if s.reInitTFT = 1 then
      { reInitTFT := 0, reInitCodec := s.reInitCodec, res := initTFTfun s.res }
    else s
  if s1.reInitCodec = 1 then
    { reInitTFT := s1.reInitTFT, reInitCodec := 0, res := initCodecfun s1.res }
  else s1

/-- ambi_bin_process (ambi_bin.c lines 151-319) at control-flow level:
after the drain, the full decode pipeline (analysis, rotation, mixing,
synthesis, modelled by the black-box parameter pipeline) runs only when
nSamples equals FRAME_SIZE, isPlaying is set, and both reinit flags are
clean at the decision point of line 196; otherwise every sample of every
output channel up to nOutputs is set to exactly zero (the memset of line
318).  The synthesized ear signals fill output channels 0 and 1; any
further requested output channels are zero-filled (lines 302-307). -/
def ambi_bin_process {Res : Type} (FRAME : ℕ)
    (initTFTfun initCodecfun : Res → Res)
    (pipeline : Res → (ℕ → ℕ → ℚ) → ℕ → (Fin 2 → Fin FRAME → ℚ) × Res)
    (s : ABProcState Res) (inputs : ℕ → ℕ → ℚ)
    (nInputs nOutputs nSamples : ℕ) (isPlaying : Bool) :
    (Fin nOutputs → Fin FRAME → ℚ) × ABProcState Res :=
  let s1 := ambiBinProcessDrain initTFTfun initCodecfun s
  if nSamples = FRAME ∧ isPlaying = true ∧ s1.reInitCodec = 0 ∧ s1.reInitTFT = 0 then
    let pr := pipeline s1.res inputs nInputs
    (fun ch t => if h : (ch : ℕ) < 2 then pr.1 ⟨(ch : ℕ), h⟩ t else 0,
     { s1 with res := pr.2 })
  else
    (fun _ _ => 0, s1)

/-- Process-level state of the binauraliser: the filterbank and HRTF
reinit flags, whether an HRTF filterbank is loaded (hrtf_fb not NULL),
and the opaque resource component. -/
structure BinProcState (Res : Type) where
  reInitTFT : ℤ
  reInitHRTFsAndGainTables : ℤ
  hrtfLoaded : Bool
  res : Res

/-- The filterbank-only drain of binauraliser_process on builds without
__APPLE__ (binauraliser.c lines 181-185). -/
def binauraliserTFTDrain {Res : Type} (initTFTfun : Res → Res)
    (s : BinProcState Res) : BinProcState Res :=
  if s.reInitTFT = 1 then { s with reInitTFT := 0, res := initTFTfun s.res } else s

/-- binauraliser_checkReInit (binauraliser.c lines 295-310): drains the
filterbank flag and then the HRTF/gain-table flag; called from process
only on builds with __APPLE__. -/
def binauraliserCheckReInit {Res : Type} (initTFTfun initHRTFfun : Res → Res)
    (s : BinProcState Res) : BinProcState Res :=
  let s1 := binauraliserTFTDrain initTFTfun s
  if s1.reInitHRTFsAndGainTables = 1 then
    { s1 with reInitHRTFsAndGainTables := 0, res := initHRTFfun s1.res }
  else s1

/-- binauraliser_process (binauraliser.c lines 161-284) at control-flow
level.  After the build-dependent drain, the panner branch runs when
nSamples equals FRAME_SIZE, the HRTF filterbank is loaded, and both
reinit flags are clean (line 189); note that isPlaying is NOT part of
this guard.  Inside the branch the input frame is always analysed
(black-box ana); when isPlaying is set the main processing (rotation,
HRTF interpolation, accumulation and scaling, black-box mainProc) fills
the output tensor, otherwise the tensor is memset to zero (line 263);
either way the tensor is then synthesized back to the time domain by the
stateful black-box filterbank syn and written to the first two output
channels, with any further channels zero-filled.  Only when the guard
fails is the output memset to zero directly (lines 281-282). -/
def binauraliser_process {Res : Type} (FRAME B T : ℕ) (apple : Bool)
    (initTFTfun initHRTFfun : Res → Res)
    (ana : Res → (ℕ → ℕ → ℚ) → ℕ → (Fin B → ℕ → Fin T → CQ) × Res)
    (mainProc : Res → (Fin B → ℕ → Fin T → CQ) → (Fin B → Fin 2 → Fin T → CQ) × Res)
    (syn : Res → (Fin B → Fin 2 → Fin T → CQ) → (Fin 2 → Fin FRAME → ℚ) × Res)
    (s : BinProcState Res) (inputs : ℕ → ℕ → ℚ)
    (nInputs nOutputs nSamples : ℕ) (isPlaying : Bool) :
    (Fin nOutputs → Fin FRAME → ℚ) × BinProcState Res :=
  let s1 := if apple then binauraliserCheckReInit initTFTfun initHRTFfun s
            else binauraliserTFTDrain initTFTfun s
  if nSamples = FRAME ∧ s1.hrtfLoaded = true ∧ s1.reInitTFT = 0 ∧
      s1.reInitHRTFsAndGainTables = 0 then
    let a := ana s1.res inputs nInputs
    let m := if isPlaying = true then mainProc a.2 a.1 else ((fun _ _ _ => 0), a.2)
    let o := syn m.2 m.1
    (fun ch t => if h : (ch : ℕ) < 2 then o.1 ⟨(ch : ℕ), h⟩ t else 0,
     { s1 with res := o.2 })
  else
    (fun _ _ => 0, s1)

/-- C1 counterexample: a binauraliser engine with clean flags, a loaded
HRTF set and a valid frame, but isPlaying false, still runs the synthesis
filterbank on the zeroed subband tensor.  The afSTFT synthesis bank is
stateful (overlap-add with a 12-hop latency, binauraliser_getProcessingDelay),
so a prior engine state whose synthesis tail is nonzero yields nonzero
output: here syn emits its stored one-sample tail (a linear map of the
state), and the process call outputs 1 rather than the claimed bit-exact
zero. -/
theorem claim_C1_counterexample :
    (binauraliser_process 1 1 1 false id id
        (fun r _ _ => ((fun _ _ _ => 0), r))
        (fun r _ => ((fun _ _ _ => 0), r))
        (fun r _ => ((fun _ _ => r), 0))
        (⟨0, 0, true, 1⟩ : BinProcState ℚ) (fun _ _ => 0) 1 1 1 false).1 0 0 = 1 ∧
    (1 : ℚ) ≠ 0 := by
  constructor
  · rfl
  · norm_num

/-- C1 amended: (a) for ambi_bin_process the claim holds as stated: if
nSamples differs from FRAME_SIZE, or isPlaying is false, or either reinit
flag is non-clean at the decision point, every sample of every output
channel up to nOutputs is exactly zero, for any input and any prior
state; (b) for binauraliser_process the same holds for a wrong nSamples,
a non-clean flag at the decision point, or an unloaded HRTF set; (c) but
with isPlaying false and an otherwise valid call, binauraliser_process
instead feeds the all-zero subband tensor to the stateful synthesis
filterbank, so its output is the filterbank response to zero input from
the current state (all-zero only when that state has a zero tail). -/
theorem claim_C1_silence_guards :
    (∀ (Res : Type) (FRAME : ℕ) (fT fC : Res → Res)
       (pipeline : Res → (ℕ → ℕ → ℚ) → ℕ → (Fin 2 → Fin FRAME → ℚ) × Res)
       (s : ABProcState Res) (inputs : ℕ → ℕ → ℚ)
       (nInputs nOutputs nSamples : ℕ) (isPlaying : Bool)
       (ch : Fin nOutputs) (t : Fin FRAME),
       (nSamples ≠ FRAME ∨ isPlaying = false ∨
        (ambiBinProcessDrain fT fC s).reInitTFT ≠ 0 ∨
        (ambiBinProcessDrain fT fC s).reInitCodec ≠ 0) →
       (ambi_bin_process FRAME fT fC pipeline s inputs
          nInputs nOutputs nSamples isPlaying).1 ch t = 0) ∧
    (∀ (Res : Type) (FRAME B T : ℕ) (apple : Bool) (fT fH : Res → Res)
       (ana : Res → (ℕ → ℕ → ℚ) → ℕ → (Fin B → ℕ → Fin T → CQ) × Res)
       (mainProc : Res → (Fin B → ℕ → Fin T → CQ) → (Fin B → Fin 2 → Fin T → CQ) × Res)
       (syn : Res → (Fin B → Fin 2 → Fin T → CQ) → (Fin 2 → Fin FRAME → ℚ) × Res)
       (s : BinProcState Res) (inputs : ℕ → ℕ → ℚ)
       (nInputs nOutputs nSamples : ℕ) (isPlaying : Bool)
       (ch : Fin nOutputs) (t : Fin FRAME),
       (nSamples ≠ FRAME ∨
        (if apple then binauraliserCheckReInit fT fH s
         else binauraliserTFTDrain fT s).reInitTFT ≠ 0 ∨
        (if apple then binauraliserCheckReInit fT fH s
         else binauraliserTFTDrain fT s).reInitHRTFsAndGainTables ≠ 0 ∨
        (if apple then binauraliserCheckReInit fT fH s
         else binauraliserTFTDrain fT s).hrtfLoaded = false) →
       (binauraliser_process FRAME B T apple fT fH ana mainProc syn s inputs
          nInputs nOutputs nSamples isPlaying).1 ch t = 0) ∧
    (∀ (Res : Type) (FRAME B T : ℕ) (apple : Bool) (fT fH : Res → Res)
       (ana : Res → (ℕ → ℕ → ℚ) → ℕ → (Fin B → ℕ → Fin T → CQ) × Res)
       (mainProc : Res → (Fin B → ℕ → Fin T → CQ) → (Fin B → Fin 2 → Fin T → CQ) × Res)
       (syn : Res → (Fin B → Fin 2 → Fin T → CQ) → (Fin 2 → Fin FRAME → ℚ) × Res)
       (s : BinProcState Res) (inputs : ℕ → ℕ → ℚ)
       (nInputs nOutputs nSamples : ℕ),
       s.reInitTFT = 0 → s.reInitHRTFsAndGainTables = 0 → s.hrtfLoaded = true →
       nSamples = FRAME →
       binauraliser_process FRAME B T apple fT fH ana mainProc syn s inputs
          nInputs nOutputs nSamples false =
         ((fun (ch : Fin nOutputs) (t : Fin FRAME) => if h : (ch : ℕ) < 2 then
             (syn (ana s.res inputs nInputs).2 (fun _ _ _ => 0)).1 ⟨(ch : ℕ), h⟩ t
           else 0),
          { s with res := (syn (ana s.res inputs nInputs).2 (fun _ _ _ => 0)).2 })) := by
  refine ⟨?_, ?_, ?_⟩
  · intro Res FRAME fT fC pipeline s inputs nInputs nOutputs nSamples isPlaying ch t h
    have hneg : ¬ (nSamples = FRAME ∧ isPlaying = true ∧
        (ambiBinProcessDrain fT fC s).reInitCodec = 0 ∧
        (ambiBinProcessDrain fT fC s).reInitTFT = 0) := by
      intro hc
      rcases h with h | h | h | h
      · exact h hc.1
      · rw [h] at hc
        exact Bool.false_ne_true hc.2.1
      · exact h hc.2.2.2
      · exact h hc.2.2.1
    simp only [ambi_bin_process]
    rw [if_neg hneg]
  · intro Res FRAME B T apple fT fH ana mainProc syn s inputs nInputs nOutputs
      nSamples isPlaying ch t h
    have hneg : ¬ (nSamples = FRAME ∧
        (if apple then binauraliserCheckReInit fT fH s
         else binauraliserTFTDrain fT s).hrtfLoaded = true ∧
        (if apple then binauraliserCheckReInit fT fH s
         else binauraliserTFTDrain fT s).reInitTFT = 0 ∧
        (if apple then binauraliserCheckReInit fT fH s
         else binauraliserTFTDrain fT s).reInitHRTFsAndGainTables = 0) := by
      intro hc
      rcases h with h | h | h | h
      · exact h hc.1
      · exact h hc.2.2.1
      · exact h hc.2.2.2
      · rw [h] at hc
        exact Bool.false_ne_true hc.2.1
    simp only [binauraliser_process]
    rw [if_neg hneg]
  · intro Res FRAME B T apple fT fH ana mainProc syn s inputs nInputs nOutputs
      nSamples hT hH hL hN
    have hs1 : (if apple then binauraliserCheckReInit fT fH s
        else binauraliserTFTDrain fT s) = s := by
      cases apple <;>
        simp [binauraliserCheckReInit, binauraliserTFTDrain, hT, hH]
    simp only [binauraliser_process, hs1]
    rw [if_pos ⟨hN, hL, hT, hH⟩]
    rfl

/-- Witness for C1 applying the ambi_bin conjunct at a concrete call with
nSamples = 0 against FRAME_SIZE = 1. -/
theorem claim_C1_silence_guards_witness :
    ((0 : ℕ) ≠ 1 ∨ true = false ∨
      (ambiBinProcessDrain id id (⟨0, 0, ()⟩ : ABProcState Unit)).reInitTFT ≠ 0 ∨
      (ambiBinProcessDrain id id (⟨0, 0, ()⟩ : ABProcState Unit)).reInitCodec ≠ 0) ∧
    (ambi_bin_process 1 id id (fun r _ _ => ((fun _ _ => 0), r))
        (⟨0, 0, ()⟩ : ABProcState Unit) (fun _ _ => 0) 1 1 0 true).1 0 0 = 0 :=
  ⟨Or.inl (by decide),
   claim_C1_silence_guards.1 Unit 1 id id (fun r _ _ => ((fun _ _ => 0), r))
     ⟨0, 0, ()⟩ (fun _ _ => 0) 1 1 0 true 0 0 (Or.inl (by decide))⟩
